import Mathlib

/-! simpleVault: ownership-scoped secret records behind an external auth service.

Shallow embedding of `api/main.go` and `api/helpers/auth.go`.

* The two MongoDB collections are lists of documents in natural order; the
  driver calls (`Find`, `FindOne`, `InsertOne`, `UpdateOne`, `DeleteOne`) are
  functions on those lists.  A driver call can also fail for reasons outside the
  collection contents (network, timeout); the environment `Env` says which calls do.
* The auth service is a pair of functions from the request body sent to the
  outcome of the HTTP exchange.
* `time.Now()` and `uuid.New().String()` are read from the environment.
* Every outbound call is appended to `World.trace`.
* Strings are Lean strings.  The only place where the source indexes a string
  is the test for the seven ASCII bytes `Bearer `; on UTF-8 text the byte test
  and the character test used here agree.
-/

namespace SimpleVault

/-! ## Data model -/

/-- Instants (`time.Time`), at the resolution the store keeps. -/
abbrev Time := Nat

/-- Go `map[string]string`, as the list of its entries. -/
abbrev StringMap := List (String × String)

/-- Record `Secret` of `main.go`; `Data = none` is the nil map. -/
structure Secret where
  ID : String
  UserID : String
  Name : String
  Description : String
  Data : Option StringMap
  CreatedAt : Time
  UpdatedAt : Time
deriving DecidableEq, Repr

/-- Zero value of `Secret` (`var s Secret`). -/
def Secret.zero : Secret :=
  { ID := "", UserID := "", Name := "", Description := "", Data := none,
    CreatedAt := 0, UpdatedAt := 0 }

/-- Value found under `_id` in a user directory document. -/
inductive BsonValue where
  /-- A `primitive.ObjectID`, given by its `Hex()` rendering. -/
  | objectID (hex : String)
  /-- Any value that is not an ObjectID. -/
  | other (repr : String)
deriving DecidableEq, Repr

/-- Document of the `users` collection, as far as the program reads it. -/
structure UserDoc where
  _id : BsonValue
  username : String
deriving DecidableEq, Repr

/-- Type `TokenValidationRequest` of `helpers/auth.go`. -/
structure TokenValidationRequest where
  Token : String
deriving DecidableEq, Repr

/-- Type `TokenValidationResponse` of `helpers/auth.go`. -/
structure TokenValidationResponse where
  Valid : Bool
  Username : String
  Message : String
deriving DecidableEq, Repr

/-- Type `AccessKeyAuthRequest` of `helpers/auth.go`. -/
structure AccessKeyAuthRequest where
  AccessKey : String
  SecretKey : String
deriving DecidableEq, Repr

/-- Type `AccessKeyAuthResponse` of `helpers/auth.go`. -/
structure AccessKeyAuthResponse where
  Token : String
  UserID : String
  Username : String
  Email : String
  Message : String
deriving DecidableEq, Repr

/-- Query document `bson.M` over the secrets collection: each present key must
be equal in the matched document. -/
structure Filter where
  _id : Option String := none
  userId : Option String := none
  name : Option String := none
deriving DecidableEq, Repr

/-- Update document: the `$set` of `updateSecret`. -/
structure SetDoc where
  name : String
  description : String
  data : Option StringMap
  updatedAt : Time
deriving DecidableEq, Repr

/-- Outbound calls a request makes, in the order it makes them. -/
inductive Effect where
  /-- Request `POST AuthServiceURL/validate`. -/
  | authValidate (req : TokenValidationRequest)
  /-- Request `POST AuthServiceURL/auth/apikey`. -/
  | authApiKey (req : AccessKeyAuthRequest)
  /-- Call `usersCollection.FindOne` by username. -/
  | usersFindOne (username : String)
  | secretsFind (f : Filter)
  | secretsFindOne (f : Filter)
  | secretsInsertOne (doc : Secret)
  | secretsUpdateOne (f : Filter) (upd : SetDoc)
  | secretsDeleteOne (f : Filter)
deriving DecidableEq, Repr

/-- True for the calls that go to the document store. -/
def Effect.isStore : Effect → Bool
  | .authValidate _ => false
  | .authApiKey _ => false
  | _ => true

/-- Both collections and the calls made so far. -/
structure World where
  secrets : List Secret
  users : List UserDoc
  trace : List Effect
deriving DecidableEq, Repr

/-- Append one outbound call to the trace. -/
def World.record (w : World) (e : Effect) : World :=
  { w with trace := w.trace ++ [e] }

/-- Outcome of one HTTP exchange with the auth service. -/
inductive HttpOutcome (α : Type) where
  /-- Method `client.Do` returns an error. -/
  | doErr (e : String)
  /-- A status other than 200, with its status line and body. -/
  | notOK (status body : String)
  /-- Status 200 with a body that does not decode. -/
  | decodeErr (e : String)
  /-- Status 200 with the decoded body. -/
  | ok (v : α)

/-- What lies outside the process during one request. -/
structure Env where
  /-- The auth service at `/validate`. -/
  validate : TokenValidationRequest → HttpOutcome TokenValidationResponse
  /-- The auth service at `/auth/apikey`. -/
  apikey : AccessKeyAuthRequest → HttpOutcome AccessKeyAuthResponse
  /-- Driver error of the user directory lookup, if it fails. -/
  usersErr : Option String
  /-- Driver error of the n-th call on the secrets collection, if it fails. -/
  secretsErr : Nat → Option String
  /-- Value of `time.Now()`. -/
  now : Time
  /-- Value of `uuid.New().String()`. -/
  uuid : String

/-- Errors of the driver: the sentinel `mongo.ErrNoDocuments` and all others. -/
inductive MongoErr where
  | ErrNoDocuments
  | other (msg : String)
deriving DecidableEq, Repr

/-- Method `Error()` of a driver error. -/
def MongoErr.Error : MongoErr → String
  | .ErrNoDocuments => "mongo: no documents in result"
  | .other msg => msg

/-! ## The document store -/

/-- A document satisfies a filter when every present key is equal. -/
def Filter.matches (f : Filter) (s : Secret) : Bool :=
  (match f._id with | none => true | some i => s.ID == i) &&
  (match f.userId with | none => true | some u => s.UserID == u) &&
  (match f.name with | none => true | some n => s.Name == n)

/-- Fields written by `$set`; `_id`, `userId` and `createdAt` are not among them. -/
def SetDoc.apply (u : SetDoc) (s : Secret) : Secret :=
  { s with Name := u.name, Description := u.description, Data := u.data,
           UpdatedAt := u.updatedAt }

/-- Replace the first document satisfying `p`; the count of documents matched. -/
def updateFirst (p : Secret → Bool) (g : Secret → Secret) : List Secret → Nat × List Secret
  | [] => (0, [])
  | s :: rest =>
    if p s then (1, g s :: rest)
    else ((updateFirst p g rest).1, s :: (updateFirst p g rest).2)

/-- Driver call `secretsCollection.Find`: the matching documents. -/
def secretsFind (err : Option String) (f : Filter) (w : World) :
    Except MongoErr (List Secret) × World :=
  match err with
  | some e => (.error (.other e), w.record (.secretsFind f))
  | none => (.ok (w.secrets.filter f.matches), w.record (.secretsFind f))

/-- Driver call `cursor.All`: decodes what the cursor holds. -/
def cursorAll (err : Option String) (cursor : List Secret) : Except MongoErr (List Secret) :=
  match err with
  | some e => .error (.other e)
  | none => .ok cursor

/-- Driver call `secretsCollection.FindOne(...).Decode`: the first match. -/
def secretsFindOne (err : Option String) (f : Filter) (w : World) :
    Except MongoErr Secret × World :=
  match err with
  | some e => (.error (.other e), w.record (.secretsFindOne f))
  | none =>
    match w.secrets.find? f.matches with
    | none => (.error .ErrNoDocuments, w.record (.secretsFindOne f))
    | some s => (.ok s, w.record (.secretsFindOne f))

/-- Driver call `secretsCollection.InsertOne`; `_id` is the primary key, so a
document whose `_id` is already present is refused. -/
def secretsInsertOne (err : Option String) (doc : Secret) (w : World) :
    Except MongoErr Unit × World :=
  match err with
  | some e => (.error (.other e), w.record (.secretsInsertOne doc))
  | none =>
    if w.secrets.any (fun s => s.ID == doc.ID) then
      (.error (.other "E11000 duplicate key error"), w.record (.secretsInsertOne doc))
    else
      (.ok (), { w with secrets := w.secrets ++ [doc] }.record (.secretsInsertOne doc))

/-- Driver call `secretsCollection.UpdateOne`; the result is `MatchedCount`. -/
def secretsUpdateOne (err : Option String) (f : Filter) (u : SetDoc) (w : World) :
    Except MongoErr Nat × World :=
  match err with
  | some e => (.error (.other e), w.record (.secretsUpdateOne f u))
  | none =>
    (.ok (updateFirst f.matches u.apply w.secrets).1,
      { w with secrets := (updateFirst f.matches u.apply w.secrets).2 }.record
        (.secretsUpdateOne f u))

/-- Driver call `secretsCollection.DeleteOne`; the result is `DeletedCount`. -/
def secretsDeleteOne (err : Option String) (f : Filter) (w : World) :
    Except MongoErr Nat × World :=
  match err with
  | some e => (.error (.other e), w.record (.secretsDeleteOne f))
  | none =>
    (.ok (if w.secrets.any f.matches then 1 else 0),
      { w with secrets := w.secrets.eraseP f.matches }.record (.secretsDeleteOne f))

/-- Driver call `usersCollection.FindOne` with the filter on `username`. -/
def usersFindOne (err : Option String) (username : String) (w : World) :
    Except MongoErr UserDoc × World :=
  match err with
  | some e => (.error (.other e), w.record (.usersFindOne username))
  | none =>
    match w.users.find? (fun d => d.username == username) with
    | none => (.error .ErrNoDocuments, w.record (.usersFindOne username))
    | some d => (.ok d, w.record (.usersFindOne username))

/-! ## HTTP layer: the gin context -/

/-- JSON body of a response. -/
inductive Body where
  /-- Object with the single key `error`. -/
  | error (e : String)
  /-- Object with the single key `message`. -/
  | message (m : String)
  /-- Object with the keys `message` and `error`. -/
  | messageError (m e : String)
  /-- Object with the keys `id`, `userId`, `name`, `description`, `data`,
  `createdAt`, `updatedAt` read from the record, the two instants rendered
  by `Format(time.RFC3339)`. -/
  | secret (s : Secret)
  /-- Object with the key `secrets` holding an array of such objects. -/
  | secrets (l : List Secret)
  /-- Object with the keys `name`, `description`, `data` only. -/
  | access (name description : String) (data : Option StringMap)
deriving DecidableEq, Repr

/-- Status code and body written by `c.JSON`. -/
structure Response where
  status : Nat
  body : Body
deriving DecidableEq, Repr

/-- Request body after `encoding/json` has read it into a request struct:
members the body lacks are zero values. -/
structure JsonBody where
  name : String := ""
  description : String := ""
  data : Option StringMap := none
  accessKey : String := ""
  secretKey : String := ""
deriving DecidableEq, Repr

/-- The part of `gin.Context` the program uses. -/
structure Context where
  /-- Value of `c.GetHeader` for `Authorization`, empty when absent. -/
  Authorization : String
  /-- Value of `c.Param` for `id`. -/
  id : String
  /-- Decoded request body, or the decoder error. -/
  body : Except String JsonBody
  /-- Entry `userID` of the context keys (`c.Set`, `c.Get`). -/
  userID : Option String
  /-- Set by `c.Abort`: the remaining handlers of the chain are skipped. -/
  aborted : Bool
  /-- What `c.JSON` has written. -/
  response : Option Response

/-- An incoming HTTP request, as far as the program reads it. -/
structure Request where
  /-- Header `Authorization`, empty when absent. -/
  Authorization : String
  /-- Path parameter `id`, empty on routes without it. -/
  id : String
  /-- Decoded request body, or the decoder error. -/
  body : Except String JsonBody

/-- The context gin creates for an incoming request: no keys, not aborted,
nothing written. -/
def Context.new (r : Request) : Context :=
  { Authorization := r.Authorization, id := r.id, body := r.body, userID := none,
    aborted := false, response := none }

/-- Method `c.JSON`. -/
def Context.JSON (c : Context) (code : Nat) (body : Body) : Context :=
  { c with response := some { status := code, body := body } }

/-- Method `c.Abort`. -/
def Context.Abort (c : Context) : Context :=
  { c with aborted := true }

/-- Method `c.Set` for the key `userID`. -/
def Context.Set (c : Context) (userID : String) : Context :=
  { c with userID := some userID }

/-- Request struct of `createSecret` and `updateSecret`. -/
structure SecretReq where
  Name : String
  Description : String
  Data : Option StringMap
deriving DecidableEq, Repr

/-- Request struct of `getSecretByAccessKey`. -/
structure AccessReq where
  AccessKey : String
  SecretKey : String
  Name : String
deriving DecidableEq, Repr

/-- Text of the validator for one field that fails `binding:required`
(`fieldError.Error`): the key and the field are the field name, since the
request structs are anonymous. -/
def requiredTag (field : String) : String :=
  "Key: '" ++ field ++ "' Error:Field validation for '" ++ field ++
    "' failed on the 'required' tag"

/-- Text of the validator for all failing fields (`ValidationErrors.Error`):
one line per field, in the order of the struct fields. -/
def validationErrors (failing : List String) : String :=
  "\n".intercalate (failing.map requiredTag)

/-- Method `c.ShouldBindJSON` on the request struct of create and update:
the decoder error if the body does not decode; otherwise `Name` must be
non-empty and `Data` non-nil, and every field that is not is reported. -/
def bindSecretReq (c : Context) : Except String SecretReq :=
  match c.body with
  | .error e => .error e
  | .ok b =>
    match (if b.name == "" then ["Name"] else []) ++
        (if b.data.isNone then ["Data"] else []) with
    | [] => .ok { Name := b.name, Description := b.description, Data := b.data }
    | f :: fs => .error (validationErrors (f :: fs))

/-- Method `c.ShouldBindJSON` on the request struct of the access-key route:
the decoder error if the body does not decode; otherwise all three fields must
be non-empty, and every field that is not is reported. -/
def bindAccessReq (c : Context) : Except String AccessReq :=
  match c.body with
  | .error e => .error e
  | .ok b =>
    match (if b.accessKey == "" then ["AccessKey"] else []) ++
        (if b.secretKey == "" then ["SecretKey"] else []) ++
        (if b.name == "" then ["Name"] else []) with
    | [] => .ok { AccessKey := b.accessKey, SecretKey := b.secretKey, Name := b.name }
    | f :: fs => .error (validationErrors (f :: fs))

/-! ## Auth client (`helpers/auth.go`) -/

/-- Function `ValidateTokenWithAuthService`.  With a well-formed
`AuthServiceURL` neither `json.Marshal` nor `http.NewRequest` can fail, so the
request is always sent. -/
def ValidateTokenWithAuthService (env : Env) (token : String) (w : World) :
    Except String TokenValidationResponse × World :=
  let token := if token.length > 7 && token.take 7 == "Bearer " then token.drop 7 else token
  let reqBody : TokenValidationRequest := { Token := token }
  match env.validate reqBody with
  | .doErr e => (.error ("failed to call auth service: " ++ e), w.record (.authValidate reqBody))
  | .notOK status body =>
    (.error ("auth service returned error: " ++ status ++ " - " ++ body),
      w.record (.authValidate reqBody))
  | .decodeErr e =>
    (.error ("failed to decode response: " ++ e), w.record (.authValidate reqBody))
  | .ok validationResp => (.ok validationResp, w.record (.authValidate reqBody))

/-- Function `ValidateToken`: the username of a valid token. -/
def ValidateToken (env : Env) (token : String) (w : World) : Except String String × World :=
  match ValidateTokenWithAuthService env token w with
  | (.error err, w1) => (.error err, w1)
  | (.ok resp, w1) =>
    if !resp.Valid then (.error ("token validation failed: " ++ resp.Message), w1)
    else (.ok resp.Username, w1)

/-- Function `ValidateAccessKey`. -/
def ValidateAccessKey (env : Env) (accessKey secretKey : String) (w : World) :
    Except String AccessKeyAuthResponse × World :=
  let reqBody : AccessKeyAuthRequest := { AccessKey := accessKey, SecretKey := secretKey }
  match env.apikey reqBody with
  | .doErr e => (.error ("failed to call auth service: " ++ e), w.record (.authApiKey reqBody))
  | .notOK status body =>
    (.error ("auth service returned error: " ++ status ++ " - " ++ body),
      w.record (.authApiKey reqBody))
  | .decodeErr e =>
    (.error ("failed to decode response: " ++ e), w.record (.authApiKey reqBody))
  | .ok authResp => (.ok authResp, w.record (.authApiKey reqBody))

/-! ## Authorization gate (`main.go`) -/

/-- Errors returned by `getUserIDFromToken`. -/
inductive GateErr where
  /-- A `gin.Error` of type public with its `Err` and `Meta`. -/
  | ginError (err : Option String) (Meta : String)
  /-- A driver error passed on as it is. -/
  | store (e : MongoErr)
deriving DecidableEq, Repr

/-- Function `getUserIDFromToken`. -/
def getUserIDFromToken (env : Env) (c : Context) (w : World) : Except GateErr String × World :=
  let authHeader := c.Authorization
  if authHeader == "" then
    (.error (.ginError none "Authorization header is required"), w)
  else
    match ValidateToken env authHeader w with
    | (.error err, w1) => (.error (.ginError (some err) err), w1)
    | (.ok username, w1) =>
      match usersFindOne env.usersErr username w1 with
      | (.error .ErrNoDocuments, w2) => (.error (.ginError none "User not found"), w2)
      | (.error e, w2) => (.error (.store e), w2)
      | (.ok userDoc, w2) =>
        match userDoc._id with
        | .objectID hex => (.ok hex, w2)
        | .other _ => (.error (.ginError none "Invalid user ID format"), w2)

/-- Handler returned by `authMiddleware`.  The closing `c.Next()` is in tail
position, so returning to the chain runs the same handlers. -/
def authMiddleware (env : Env) (c : Context) (w : World) : Context × World :=
  match getUserIDFromToken env c w with
  | (.error _, w1) => ((c.JSON 401 (.error "Unauthorized User")).Abort, w1)
  | (.ok userID, w1) => (c.Set userID, w1)

/-! ## Secret store accessor (`main.go`) -/

/-- Handler `getSecrets`. -/
def getSecrets (env : Env) (c : Context) (w : World) : Context × World :=
  match c.userID with
  | none => (c.JSON 401 (.error "User ID not found in context"), w)
  | some userIDStr =>
    let filter : Filter := { userId := some userIDStr }
    match secretsFind (env.secretsErr 0) filter w with
    | (.error err, w1) =>
      (c.JSON 500 (.error ("Failed to fetch secrets: " ++ err.Error)), w1)
    | (.ok cursor, w1) =>
      match cursorAll (env.secretsErr 1) cursor with
      | .error err => (c.JSON 500 (.error ("Failed to decode secrets: " ++ err.Error)), w1)
      | .ok secrets => (c.JSON 200 (.secrets secrets), w1)

/-- Handler `getSecret`. -/
def getSecret (env : Env) (c : Context) (w : World) : Context × World :=
  let id := c.id
  match c.userID with
  | none => (c.JSON 401 (.error "User ID not found in context"), w)
  | some userIDStr =>
    match secretsFindOne (env.secretsErr 0) { _id := some id, userId := some userIDStr } w with
    | (.error .ErrNoDocuments, w1) => (c.JSON 404 (.error "Secret not found"), w1)
    | (.error err, w1) => (c.JSON 500 (.error ("Failed to fetch secret: " ++ err.Error)), w1)
    | (.ok secret, w1) => (c.JSON 200 (.secret secret), w1)

/-- Handler `createSecret`. -/
def createSecret (env : Env) (c : Context) (w : World) : Context × World :=
  match bindSecretReq c with
  | .error err => (c.JSON 400 (.error err), w)
  | .ok req =>
    match c.userID with
    | none => (c.JSON 401 (.error "User ID not found in context"), w)
    | some userIDStr =>
      let now := env.now
      let secret : Secret :=
        { ID := env.uuid, UserID := userIDStr, Name := req.Name,
          Description := req.Description, Data := req.Data,
          CreatedAt := now, UpdatedAt := now }
      match secretsInsertOne (env.secretsErr 0) secret w with
      | (.error err, w1) =>
        (c.JSON 500 (.error ("Failed to create secret: " ++ err.Error)), w1)
      | (.ok _, w1) => (c.JSON 201 (.secret secret), w1)

/-- Handler `updateSecret`. -/
def updateSecret (env : Env) (c : Context) (w : World) : Context × World :=
  let id := c.id
  match c.userID with
  | none => (c.JSON 401 (.error "User ID not found in context"), w)
  | some userIDStr =>
    match bindSecretReq c with
    | .error err => (c.JSON 400 (.error err), w)
    | .ok req =>
      match secretsFindOne (env.secretsErr 0) { _id := some id, userId := some userIDStr } w with
      | (.error .ErrNoDocuments, w1) => (c.JSON 404 (.error "Secret not found"), w1)
      | (.error err, w1) =>
        (c.JSON 500 (.error ("Failed to fetch secret: " ++ err.Error)), w1)
      | (.ok _, w1) =>
        let update : SetDoc :=
          { name := req.Name, description := req.Description, data := req.Data,
            updatedAt := env.now }
        match secretsUpdateOne (env.secretsErr 1)
            { _id := some id, userId := some userIDStr } update w1 with
        | (.error err, w2) =>
          (c.JSON 500 (.error ("Failed to update secret: " ++ err.Error)), w2)
        | (.ok matchedCount, w2) =>
          if matchedCount == 0 then (c.JSON 404 (.error "Secret not found"), w2)
          else
            match secretsFindOne (env.secretsErr 2)
                { _id := some id, userId := some userIDStr } w2 with
            | (.error _, w3) => (c.JSON 200 (.secret Secret.zero), w3)
            | (.ok updated, w3) => (c.JSON 200 (.secret updated), w3)

/-- Handler `deleteSecret`. -/
def deleteSecret (env : Env) (c : Context) (w : World) : Context × World :=
  let id := c.id
  match c.userID with
  | none => (c.JSON 401 (.error "User ID not found in context"), w)
  | some userIDStr =>
    match secretsDeleteOne (env.secretsErr 0) { _id := some id, userId := some userIDStr } w with
    | (.error err, w1) =>
      (c.JSON 500 (.error ("Failed to delete secret: " ++ err.Error)), w1)
    | (.ok deletedCount, w1) =>
      if deletedCount == 0 then (c.JSON 404 (.error "Secret not found"), w1)
      else (c.JSON 200 (.message "Secret deleted successfully"), w1)

/-- Handler `getSecretByAccessKey`. -/
def getSecretByAccessKey (env : Env) (c : Context) (w : World) : Context × World :=
  match bindAccessReq c with
  | .error err => (c.JSON 400 (.messageError "Invalid JSON body" err), w)
  | .ok req =>
    if req.AccessKey == "" || req.SecretKey == "" then
      (c.JSON 400 (.message "Access key and secret key are required"), w)
    else if req.Name == "" then
      (c.JSON 400 (.message "Secret name is required"), w)
    else
      match ValidateAccessKey env req.AccessKey req.SecretKey w with
      | (.error err, w1) => (c.JSON 401 (.messageError "Authentication failed" err), w1)
      | (.ok authResp, w1) =>
        let userID := authResp.UserID
        if userID == "" then
          (c.JSON 500 (.message "User ID not found in auth response"), w1)
        else
          match secretsFindOne (env.secretsErr 0)
              { name := some req.Name, userId := some userID } w1 with
          | (.error .ErrNoDocuments, w2) => (c.JSON 404 (.message "Secret not found"), w2)
          | (.error err, w2) =>
            (c.JSON 500 (.messageError "Failed to fetch secret" err.Error), w2)
          | (.ok secret, w2) =>
            (c.JSON 200 (.access secret.Name secret.Description secret.Data), w2)

/-! ## Routing (`main`) -/

/-- The five routes of the group `/api/v1` that sits behind `authMiddleware`. -/
inductive Route where
  | list | get | create | update | delete
deriving DecidableEq, Repr

/-- Handler registered for a route. -/
def Route.handler : Route → Env → Context → World → Context × World
  | .list => getSecrets
  | .get => getSecret
  | .create => createSecret
  | .update => updateSecret
  | .delete => deleteSecret

/-- The handler chain of gin: a handler runs unless the context is aborted. -/
def runChain : List (Context → World → Context × World) → Context → World → Context × World
  | [], c, w => (c, w)
  | h :: hs, c, w =>
    if c.aborted then (c, w)
    else runChain hs (h c w).1 (h c w).2

/-- A request to a session route: `authMiddleware`, then the route handler. -/
def serve (env : Env) (r : Route) (req : Request) (w : World) : Context × World :=
  runChain [authMiddleware env, r.handler env] (Context.new req) w

/-- Store states the document store can be in: `_id` is a unique key. -/
def UniqueIDs (secrets : List Secret) : Prop :=
  (secrets.map (fun s => s.ID)).Nodup

instance (secrets : List Secret) : Decidable (UniqueIDs secrets) := by
  unfold UniqueIDs; infer_instance

/-- Records whose contents a response body carries. -/
def Body.carries (b : Body) (s : Secret) : Bool :=
  match b with
  | .secret r => r == s
  | .secrets l => l.contains s
  | .access n d m => n == s.Name && d == s.Description && m == s.Data
  | _ => false

/-- True when the response written to the context carries the record. -/
def Context.discloses (c : Context) (s : Secret) : Bool :=
  match c.response with
  | none => false
  | some r => r.body.carries s

/-- The reasons for which a request does not pass the gate. -/
inductive FailureCause where
  | headerAbsent
  | authCallFails
  | tokenInvalid
  | directoryLookupError
  | userNotInDirectory
  | userIDFormat
deriving DecidableEq, Repr

/-- What each reason means for a request context in an environment and a store. -/
def FailureCause.holds (k : FailureCause) (env : Env) (c : Context) (w : World) : Prop :=
  match k with
  | .headerAbsent => c.Authorization = ""
  | .authCallFails =>
    c.Authorization ≠ "" ∧
    ∃ e, (ValidateTokenWithAuthService env c.Authorization w).1 = .error e
  | .tokenInvalid =>
    c.Authorization ≠ "" ∧
    ∃ resp, (ValidateTokenWithAuthService env c.Authorization w).1 = .ok resp ∧
      resp.Valid = false
  | .directoryLookupError =>
    c.Authorization ≠ "" ∧
    ∃ username e, (ValidateToken env c.Authorization w).1 = .ok username ∧
      env.usersErr = some e
  | .userNotInDirectory =>
    c.Authorization ≠ "" ∧
    ∃ username, (ValidateToken env c.Authorization w).1 = .ok username ∧
      env.usersErr = none ∧ ∀ d ∈ w.users, d.username ≠ username
  | .userIDFormat =>
    c.Authorization ≠ "" ∧
    ∃ username d x, (ValidateToken env c.Authorization w).1 = .ok username ∧
      env.usersErr = none ∧
      w.users.find? (fun d => d.username == username) = some d ∧ d._id = .other x

/-! ## Sample inputs -/

/-- An environment in which the auth service accepts the token `tok-alice` and
the key pair `ak`, `sk`, and no driver call fails. -/
def sampleEnv : Env :=
  { validate := fun req =>
      if req.Token == "tok-alice" then .ok { Valid := true, Username := "alice", Message := "" }
      else .ok { Valid := false, Username := "", Message := "invalid token" }
    apikey := fun req =>
      if req.AccessKey == "ak" && req.SecretKey == "sk" then
        .ok { Token := "t", UserID := "u1", Username := "alice", Email := "a@x", Message := "" }
      else .notOK "401 Unauthorized" "bad key"
    usersErr := none
    secretsErr := fun _ => none
    now := 100
    uuid := "id-9" }

/-- The same environment at a later instant, with the next generated identifier. -/
def laterEnv : Env :=
  { sampleEnv with now := 200, uuid := "id-10" }

/-- An environment whose auth service accepts every key pair but names no owner. -/
def noOwnerEnv : Env :=
  { sampleEnv with
    apikey := fun _ =>
      .ok { Token := "t", UserID := "", Username := "alice", Email := "a@x", Message := "" } }

/-- A record of owner `u1`. -/
def sampleSecret : Secret :=
  { ID := "s1", UserID := "u1", Name := "db-creds", Description := "",
    Data := some [("user", "a"), ("pass", "b")], CreatedAt := 10, UpdatedAt := 10 }

/-- A second record, of owner `u2`. -/
def otherSecret : Secret :=
  { ID := "s2", UserID := "u2", Name := "api", Description := "d",
    Data := some [("k", "v")], CreatedAt := 20, UpdatedAt := 30 }

/-- A store holding the two sample records and one directory entry. -/
def sampleWorld : World :=
  { secrets := [sampleSecret, otherSecret],
    users := [{ _id := .objectID "0123456789abcdef01234567", username := "alice" }],
    trace := [] }

/-- A context past the gate for the given caller, record identifier and body. -/
def sampleCtx (userID id : String) (body : Except String JsonBody) : Context :=
  (Context.new { Authorization := "Bearer tok", id := id, body := body }).Set userID

/-- An update body that shares no name, description or data key with the
sample records. -/
def rotatedBody : JsonBody :=
  { name := "db-creds-2", description := "rotated", data := some [("token", "z")] }

/-- A body that binds for create and update. -/
def sampleBody : JsonBody :=
  { name := "db-creds", data := some [("user", "a"), ("pass", "b")] }

/-! ## Lemmas on the document store -/

theorem unique_id_eq {l : List Secret} (hu : UniqueIDs l) {a b : Secret}
    (ha : a ∈ l) (hb : b ∈ l) (h : a.ID = b.ID) : a = b :=
  List.inj_on_of_nodup_map hu ha hb h

theorem matches_id_owner (id u : String) (s : Secret) :
    Filter.matches { _id := some id, userId := some u } s = true ↔ s.ID = id ∧ s.UserID = u := by
  simp [Filter.matches]

theorem matches_owner (u : String) (s : Secret) :
    Filter.matches { userId := some u } s = true ↔ s.UserID = u := by
  simp [Filter.matches]

theorem matches_name_owner (n u : String) (s : Secret) :
    Filter.matches { name := some n, userId := some u } s = true ↔ s.Name = n ∧ s.UserID = u := by
  simp [Filter.matches]; exact And.comm

/-- No document of a well-formed store matches the identifier of a record
together with an owner other than the owner of that record. -/
theorem no_match_other_owner {l : List Secret} (hu : UniqueIDs l) {A : Secret} (hA : A ∈ l)
    {U2 : String} (hne : U2 ≠ A.UserID) :
    ∀ s ∈ l, Filter.matches { _id := some A.ID, userId := some U2 } s = false := by
  intro s hs
  by_contra hcon
  have hm : Filter.matches { _id := some A.ID, userId := some U2 } s = true := by
    simpa using hcon
  obtain ⟨h1, h2⟩ := (matches_id_owner _ _ _).1 hm
  have : s = A := unique_id_eq hu hs hA h1
  subst this
  exact hne h2.symm

theorem find_none_of_no_match {p : Secret → Bool} {l : List Secret}
    (h : ∀ s ∈ l, p s = false) : l.find? p = none := by
  simpa [List.find?_eq_none] using h

theorem any_false_of_no_match {p : Secret → Bool} {l : List Secret}
    (h : ∀ s ∈ l, p s = false) : l.any p = false := by
  simpa [List.any_eq_false] using h

theorem eraseP_of_no_match {p : Secret → Bool} {l : List Secret}
    (h : ∀ s ∈ l, p s = false) : l.eraseP p = l := by
  apply List.eraseP_of_forall_not
  intro s hs
  simp [h s hs]

theorem eraseP_congr_mem {p q : Secret → Bool} {l : List Secret}
    (h : ∀ s ∈ l, p s = q s) : l.eraseP p = l.eraseP q := by
  induction l with
  | nil => rfl
  | cons a t ih =>
    have ha : p a = q a := h a (List.mem_cons_self a t)
    have ht : t.eraseP p = t.eraseP q := ih (fun s hs => h s (List.mem_cons_of_mem a hs))
    simp [List.eraseP_cons, ha, ht]

/-- In a well-formed store the filter on identifier and owner of a stored
record selects that record and no other. -/
theorem matches_iff_eq {l : List Secret} (hu : UniqueIDs l) {r : Secret} (hr : r ∈ l) :
    ∀ s ∈ l, Filter.matches { _id := some r.ID, userId := some r.UserID } s = (s == r) := by
  intro s hs
  by_cases h : s = r
  · subst h; simp [Filter.matches]
  · have hid : s.ID ≠ r.ID := fun hid => h (unique_id_eq hu hs hr hid)
    have h1 : (s.ID == r.ID) = false := by simpa using hid
    have h2 : (s == r) = false := by simpa using h
    simp [Filter.matches, h1, h2]

theorem eraseP_eq_erase {l : List Secret} (hu : UniqueIDs l) {r : Secret} (hr : r ∈ l) :
    l.eraseP (Filter.matches { _id := some r.ID, userId := some r.UserID }) = l.erase r := by
  rw [List.erase_eq_eraseP]
  exact eraseP_congr_mem (fun s hs => by rw [matches_iff_eq hu hr s hs]; simp [eq_comm])

theorem updateFirst_of_no_match {p : Secret → Bool} (g : Secret → Secret) {l : List Secret}
    (h : ∀ s ∈ l, p s = false) : updateFirst p g l = (0, l) := by
  induction l with
  | nil => rfl
  | cons a t ih =>
    have ha : p a = false := h a (List.mem_cons_self a t)
    have ht := ih (fun s hs => h s (List.mem_cons_of_mem a hs))
    simp [updateFirst, ha, ht]

/-- When the update keeps the filter true, the first match is found, counted
once, and is afterwards the updated document. -/
theorem updateFirst_of_find {p : Secret → Bool} {g : Secret → Secret}
    (hg : ∀ s, p s = true → p (g s) = true) {l : List Secret} {r : Secret}
    (h : l.find? p = some r) :
    (updateFirst p g l).1 = 1 ∧ (updateFirst p g l).2.find? p = some (g r) := by
  induction l with
  | nil => simp at h
  | cons a t ih =>
    by_cases ha : p a = true
    · have : a = r := by simpa [List.find?_cons, ha] using h
      subst this
      simp [updateFirst, ha, hg a ha]
    · have ha2 : p a = false := by simpa using ha
      have ht : t.find? p = some r := by simpa [List.find?_cons, ha2] using h
      obtain ⟨h1, h2⟩ := ih ht
      simp [updateFirst, ha2, h1, h2, List.find?_cons]

theorem matches_apply (f : Filter) (hn : f.name = none) (u : SetDoc) (s : Secret) :
    f.matches s = true → f.matches (u.apply s) = true := by
  simp [Filter.matches, SetDoc.apply, hn]

theorem find_some_of_mem_matches {p : Secret → Bool} {l : List Secret} {r : Secret}
    (hr : r ∈ l) (hp : p r = true) : ∃ r0, l.find? p = some r0 ∧ p r0 = true := by
  cases h : l.find? p with
  | none =>
    rw [List.find?_eq_none] at h
    exact absurd hp (h r hr)
  | some r0 => exact ⟨r0, rfl, List.find?_some h⟩

/-- In a well-formed store the filter on identifier and owner of a stored
record finds that record. -/
theorem find_of_unique {l : List Secret} (hu : UniqueIDs l) {r : Secret} (hr : r ∈ l) :
    l.find? (Filter.matches { _id := some r.ID, userId := some r.UserID }) = some r := by
  obtain ⟨r0, h0, hm0⟩ := find_some_of_mem_matches
    (p := Filter.matches { _id := some r.ID, userId := some r.UserID }) hr
    (by simp [Filter.matches])
  have hmem : r0 ∈ l := List.mem_of_find?_eq_some h0
  have : r0 = r := unique_id_eq hu hmem hr ((matches_id_owner _ _ _).1 hm0).1
  rw [h0, this]

/-- When the filter selects `r` and nothing else in a list without repetition,
the update rewrites `r` in place and leaves every other document as it is. -/
theorem updateFirst_eq_map {p : Secret → Bool} (g : Secret → Secret) {l : List Secret}
    {r : Secret} (hnd : l.Nodup) (hp : ∀ s ∈ l, p s = (s == r)) :
    (updateFirst p g l).2 = l.map (fun s => if s = r then g r else s) := by
  induction l with
  | nil => rfl
  | cons a t ih =>
    obtain ⟨hat, hndt⟩ := List.nodup_cons.1 hnd
    have hpa : p a = (a == r) := hp a (List.mem_cons_self a t)
    have hpt : ∀ s ∈ t, p s = (s == r) := fun s hs => hp s (List.mem_cons_of_mem a hs)
    by_cases har : a = r
    · subst har
      have hid : t.map (fun s => if s = a then g a else s) = t := by
        have hcongr : ∀ s ∈ t, (fun s => if s = a then g a else s) s = id s := by
          intro s hs
          have hne : s ≠ a := fun h => hat (h ▸ hs)
          simp [hne]
        rw [List.map_congr_left hcongr, List.map_id]
      have hpa2 : p a = true := by rw [hpa]; simp
      simp only [updateFirst, hpa2, if_true, List.map_cons, hid]
    · have hpa2 : p a = false := by rw [hpa]; simpa using har
      simp only [updateFirst, hpa2, Bool.false_eq_true, if_false, List.map_cons, har,
        ih hndt hpt]

/-- A delete whose filter matches nothing answers 404 and changes nothing. -/
theorem deleteSecret_of_no_match (env : Env) (c : Context) (w : World) (U : String)
    (hc : c.userID = some U) (h0 : env.secretsErr 0 = none)
    (hno : ∀ s ∈ w.secrets, Filter.matches { _id := some c.id, userId := some U } s = false) :
    (deleteSecret env c w).1.response = some ⟨404, .error "Secret not found"⟩ ∧
    (deleteSecret env c w).2.secrets = w.secrets := by
  have ha := any_false_of_no_match hno
  have he := eraseP_of_no_match hno
  simp [deleteSecret, hc, secretsDeleteOne, h0, ha, he, Context.JSON, World.record]

/-- A delete whose filter matches answers 200 and removes the first match. -/
theorem deleteSecret_of_match (env : Env) (c : Context) (w : World) (U : String)
    (hc : c.userID = some U) (h0 : env.secretsErr 0 = none)
    (hany : w.secrets.any (Filter.matches { _id := some c.id, userId := some U }) = true) :
    (deleteSecret env c w).1.response
      = some ⟨200, .message "Secret deleted successfully"⟩ ∧
    (deleteSecret env c w).2.secrets
      = w.secrets.eraseP (Filter.matches { _id := some c.id, userId := some U }) := by
  simp [deleteSecret, hc, secretsDeleteOne, h0, hany, Context.JSON, World.record]

/-- An update whose filter finds `r0`, with a body that binds and a store that
answers: the answer is 200 with the updated `r0`, the collection is the old one
with its first match updated, and the filter now finds the updated `r0`. -/
theorem updateSecret_of_find (env : Env) (c : Context) (w : World) (U : String)
    (req : SecretReq) (r0 : Secret)
    (hc : c.userID = some U) (hb : bindSecretReq c = .ok req)
    (hf : ∀ n, env.secretsErr n = none)
    (h : w.secrets.find? (Filter.matches { _id := some c.id, userId := some U }) = some r0) :
    (updateSecret env c w).1.response = some ⟨200, .secret
      (SetDoc.apply ⟨req.Name, req.Description, req.Data, env.now⟩ r0)⟩ ∧
    (updateSecret env c w).2.secrets =
      (updateFirst (Filter.matches { _id := some c.id, userId := some U })
        (SetDoc.apply ⟨req.Name, req.Description, req.Data, env.now⟩) w.secrets).2 ∧
    (updateSecret env c w).2.secrets.find?
        (Filter.matches { _id := some c.id, userId := some U }) =
      some (SetDoc.apply ⟨req.Name, req.Description, req.Data, env.now⟩ r0) := by
  obtain ⟨hcount, hfind⟩ := updateFirst_of_find
    (matches_apply { _id := some c.id, userId := some U } rfl
      ⟨req.Name, req.Description, req.Data, env.now⟩) h
  simp [updateSecret, hc, hb, secretsFindOne, secretsUpdateOne, hf, h, hcount, hfind,
    World.record, Context.JSON]

/-- A bound access request has all three fields non-empty. -/
theorem bindAccessReq_ok {c : Context} {req : AccessReq} (h : bindAccessReq c = .ok req) :
    (req.AccessKey == "") = false ∧ (req.SecretKey == "") = false ∧ (req.Name == "") = false := by
  unfold bindAccessReq at h
  cases hbody : c.body with
  | error e => rw [hbody] at h; exact absurd h (by simp)
  | ok b =>
    rw [hbody] at h
    cases h1 : (b.accessKey == "") <;> cases h2 : (b.secretKey == "") <;>
      cases h3 : (b.name == "") <;> simp [h1, h2, h3] at h
    subst h
    exact ⟨h1, h2, h3⟩

/-- Looking a name up for an owner sees the same in the whole collection as in
the records of that owner alone. -/
theorem find_name_owner_filter (l : List Secret) (n U : String) :
    (l.filter (fun s => s.UserID == U)).find?
        (Filter.matches { name := some n, userId := some U }) =
      l.find? (Filter.matches { name := some n, userId := some U }) := by
  rw [List.find?_filter]
  congr 1
  funext s
  by_cases h1 : s.UserID = U <;> by_cases h2 : s.Name = n <;> simp [Filter.matches, h1, h2]

/-! ## Unique identifiers are an invariant of the store -/

theorem UniqueIDs_append_fresh {l : List Secret} (doc : Secret) (hu : UniqueIDs l)
    (h : (l.any fun s => s.ID == doc.ID) = false) : UniqueIDs (l ++ [doc]) := by
  unfold UniqueIDs at *
  rw [List.map_append, List.nodup_append]
  refine ⟨hu, by simp, ?_⟩
  intro a ha1 ha2
  simp only [List.map_cons, List.map_nil, List.mem_singleton] at ha2
  obtain ⟨s, hs, hsa⟩ := List.mem_map.1 ha1
  rw [List.any_eq_false] at h
  have := h s hs
  simp [hsa, ha2] at this

theorem updateFirst_ids (p : Secret → Bool) (u : SetDoc) (l : List Secret) :
    (updateFirst p u.apply l).2.map (fun s => s.ID) = l.map (fun s => s.ID) := by
  induction l with
  | nil => rfl
  | cons a t ih =>
    by_cases ha : p a = true
    · simp [updateFirst, ha, SetDoc.apply]
    · simp [updateFirst, ha, ih]

theorem UniqueIDs_updateFirst (p : Secret → Bool) (u : SetDoc) {l : List Secret}
    (hu : UniqueIDs l) : UniqueIDs (updateFirst p u.apply l).2 := by
  unfold UniqueIDs at *
  rw [updateFirst_ids]
  exact hu

theorem UniqueIDs_eraseP (p : Secret → Bool) {l : List Secret} (hu : UniqueIDs l) :
    UniqueIDs (l.eraseP p) := by
  unfold UniqueIDs at *
  exact List.Nodup.sublist ((List.eraseP_sublist l).map _) hu

/-- Every route handler takes a store with unique identifiers to one. -/
theorem handler_preserves_UniqueIDs (env : Env) (r : Route) (c : Context) (w : World)
    (hu : UniqueIDs w.secrets) : UniqueIDs (r.handler env c w).2.secrets := by
  cases r with
  | list =>
    cases hU : c.userID <;> cases h0 : env.secretsErr 0 <;> cases h1 : env.secretsErr 1 <;>
      simpa [Route.handler, getSecrets, hU, h0, h1, secretsFind, cursorAll, World.record]
        using hu
  | get =>
    cases hU : c.userID with
    | none => simpa [Route.handler, getSecret, hU] using hu
    | some U =>
      cases h0 : env.secretsErr 0 <;>
        cases hf : w.secrets.find?
          (Filter.matches { _id := some c.id, userId := some U }) <;>
        simpa [Route.handler, getSecret, hU, h0, hf, secretsFindOne, World.record] using hu
  | create =>
    cases hb : bindSecretReq c with
    | error e => simpa [Route.handler, createSecret, hb] using hu
    | ok req =>
      cases hU : c.userID with
      | none => simpa [Route.handler, createSecret, hb, hU] using hu
      | some U =>
        cases h0 : env.secretsErr 0 with
        | some e =>
          simpa [Route.handler, createSecret, hb, hU, h0, secretsInsertOne, World.record]
            using hu
        | none =>
          cases hany : (w.secrets.any fun s => s.ID == env.uuid) with
          | true =>
            simpa [Route.handler, createSecret, hb, hU, h0, secretsInsertOne, World.record,
              hany] using hu
          | false =>
            have := UniqueIDs_append_fresh ⟨env.uuid, U, req.Name, req.Description,
              req.Data, env.now, env.now⟩ hu hany
            simpa [Route.handler, createSecret, hb, hU, h0, secretsInsertOne, World.record,
              hany] using this
  | update =>
    cases hU : c.userID with
    | none => simpa [Route.handler, updateSecret, hU] using hu
    | some U =>
      cases hb : bindSecretReq c with
      | error e => simpa [Route.handler, updateSecret, hU, hb] using hu
      | ok req =>
        have hup := UniqueIDs_updateFirst
          (Filter.matches { _id := some c.id, userId := some U })
          ⟨req.Name, req.Description, req.Data, env.now⟩ hu
        cases h0 : env.secretsErr 0 <;>
          cases hf : w.secrets.find?
            (Filter.matches { _id := some c.id, userId := some U }) <;>
          cases h1 : env.secretsErr 1 <;>
          cases hn : ((updateFirst (Filter.matches { _id := some c.id, userId := some U })
            (SetDoc.apply ⟨req.Name, req.Description, req.Data, env.now⟩) w.secrets).1 == 0) <;>
          cases h2 : env.secretsErr 2 <;>
          cases hf2 : (updateFirst (Filter.matches { _id := some c.id, userId := some U })
            (SetDoc.apply ⟨req.Name, req.Description, req.Data, env.now⟩) w.secrets).2.find?
            (Filter.matches { _id := some c.id, userId := some U }) <;>
          first
          | simpa [Route.handler, updateSecret, hU, hb, h0, hf, h1, hn, h2, hf2,
              secretsFindOne, secretsUpdateOne, World.record] using hu
          | simpa [Route.handler, updateSecret, hU, hb, h0, hf, h1, hn, h2, hf2,
              secretsFindOne, secretsUpdateOne, World.record] using hup
  | delete =>
    cases hU : c.userID with
    | none => simpa [Route.handler, deleteSecret, hU] using hu
    | some U =>
      have her := UniqueIDs_eraseP (Filter.matches { _id := some c.id, userId := some U }) hu
      cases h0 : env.secretsErr 0 with
      | some e =>
        simpa [Route.handler, deleteSecret, hU, h0, secretsDeleteOne, World.record] using hu
      | none =>
        cases hany : w.secrets.any (Filter.matches { _id := some c.id, userId := some U }) <;>
          simpa [Route.handler, deleteSecret, hU, h0, hany, secretsDeleteOne, World.record]
            using her

/-! ## Lemmas on the auth client and the gate -/

/-- The call to the validation endpoint is made whatever its outcome, with the
token computed from the argument, and nothing else is touched. -/
theorem ValidateTokenWithAuthService_world (env : Env) (t : String) (w : World) :
    (ValidateTokenWithAuthService env t w).2 =
      w.record (.authValidate
        ⟨if t.length > 7 && t.take 7 == "Bearer " then t.drop 7 else t⟩) := by
  unfold ValidateTokenWithAuthService
  simp only []
  split <;> rfl

theorem ValidateToken_world (env : Env) (t : String) (w : World) :
    (ValidateToken env t w).2 = (ValidateTokenWithAuthService env t w).2 := by
  unfold ValidateToken
  split
  · rename_i h; rw [h]
  · rename_i h; rw [h]; split <;> rfl

theorem ValidateToken_of_error (env : Env) (t : String) (w : World) (e : String)
    (h : (ValidateTokenWithAuthService env t w).1 = .error e) :
    (ValidateToken env t w).1 = .error e := by
  have hp : ValidateTokenWithAuthService env t w =
      (.error e, (ValidateTokenWithAuthService env t w).2) := by rw [← h]
  unfold ValidateToken
  rw [hp]

theorem ValidateToken_of_invalid (env : Env) (t : String) (w : World)
    (resp : TokenValidationResponse)
    (h : (ValidateTokenWithAuthService env t w).1 = .ok resp) (hv : resp.Valid = false) :
    (ValidateToken env t w).1 = .error ("token validation failed: " ++ resp.Message) := by
  have hp : ValidateTokenWithAuthService env t w =
      (.ok resp, (ValidateTokenWithAuthService env t w).2) := by rw [← h]
  unfold ValidateToken
  rw [hp]
  simp [hv]

theorem ValidateToken_of_valid (env : Env) (t : String) (w : World)
    (resp : TokenValidationResponse)
    (h : (ValidateTokenWithAuthService env t w).1 = .ok resp) (hv : resp.Valid = true) :
    (ValidateToken env t w).1 = .ok resp.Username := by
  have hp : ValidateTokenWithAuthService env t w =
      (.ok resp, (ValidateTokenWithAuthService env t w).2) := by rw [← h]
  unfold ValidateToken
  rw [hp]
  simp [hv]

/-- A failing token validation stops `getUserIDFromToken` before the directory. -/
theorem getUserIDFromToken_of_token_error (env : Env) (c : Context) (w : World) (e : String)
    (hh : c.Authorization ≠ "") (h : (ValidateToken env c.Authorization w).1 = .error e) :
    getUserIDFromToken env c w =
      (.error (.ginError (some e) e), (ValidateToken env c.Authorization w).2) := by
  have hp : ValidateToken env c.Authorization w =
      (.error e, (ValidateToken env c.Authorization w).2) := by rw [← h]
  have hh2 : (c.Authorization == "") = false := by simpa using hh
  unfold getUserIDFromToken
  simp only [hh2, Bool.false_eq_true, if_false]
  rw [hp]

/-- What `getUserIDFromToken` returns once the token is valid: the outcome of
the directory lookup. -/
theorem getUserIDFromToken_of_username (env : Env) (c : Context) (w : World) (u : String)
    (hh : c.Authorization ≠ "") (h : (ValidateToken env c.Authorization w).1 = .ok u) :
    (getUserIDFromToken env c w).1 =
      match env.usersErr with
      | some e => .error (.store (.other e))
      | none =>
        match w.users.find? (fun d => d.username == u) with
        | none => .error (.ginError none "User not found")
        | some d =>
          match d._id with
          | .objectID hex => .ok hex
          | .other _ => .error (.ginError none "Invalid user ID format") := by
  have hp : ValidateToken env c.Authorization w =
      (.ok u, (ValidateToken env c.Authorization w).2) := by rw [← h]
  have hw : (ValidateToken env c.Authorization w).2.users = w.users := by
    rw [ValidateToken_world, ValidateTokenWithAuthService_world]; rfl
  have hh2 : (c.Authorization == "") = false := by simpa using hh
  unfold getUserIDFromToken
  simp only [hh2, Bool.false_eq_true, if_false]
  rw [hp]
  simp only [usersFindOne, hw]
  cases env.usersErr with
  | some e => rfl
  | none =>
    cases w.users.find? (fun d => d.username == u) with
    | none => rfl
    | some d =>
      simp only []
      cases d._id <;> rfl

/-- Any error of `getUserIDFromToken` gives the same context: 401 with the body
`Unauthorized User`, aborted. -/
theorem authMiddleware_of_error (env : Env) (c : Context) (w : World) (e : GateErr)
    (h : (getUserIDFromToken env c w).1 = .error e) :
    authMiddleware env c w =
      ((c.JSON 401 (.error "Unauthorized User")).Abort, (getUserIDFromToken env c w).2) := by
  have hp : getUserIDFromToken env c w = (.error e, (getUserIDFromToken env c w).2) := by
    rw [← h]
  unfold authMiddleware
  rw [hp]

/-- Once the gate has aborted, the chain of a session route ends there. -/
theorem serve_of_aborted (env : Env) (r : Route) (req : Request) (w : World)
    (h : (authMiddleware env (Context.new req) w).1.aborted = true) :
    serve env r req w = authMiddleware env (Context.new req) w := by
  simp [serve, runChain, Context.new, h]
  simp [Context.new] at h
  simp [h]

/-- Each failure cause makes `getUserIDFromToken` return an error. -/
theorem FailureCause.gate_error (k : FailureCause) (env : Env) (c : Context) (w : World)
    (h : k.holds env c w) : ∃ e, (getUserIDFromToken env c w).1 = .error e := by
  cases k with
  | headerAbsent =>
    have h1 : c.Authorization = "" := h
    exact ⟨.ginError none "Authorization header is required",
      by simp [getUserIDFromToken, h1]⟩
  | authCallFails =>
    obtain ⟨hh, e, he⟩ := h
    have := getUserIDFromToken_of_token_error env c w e hh (ValidateToken_of_error _ _ _ _ he)
    exact ⟨_, by rw [this]⟩
  | tokenInvalid =>
    obtain ⟨hh, resp, hr, hv⟩ := h
    have := getUserIDFromToken_of_token_error env c w _ hh
      (ValidateToken_of_invalid _ _ _ resp hr hv)
    exact ⟨_, by rw [this]⟩
  | directoryLookupError =>
    obtain ⟨hh, u, e, hu, he⟩ := h
    have := getUserIDFromToken_of_username env c w u hh hu
    rw [he] at this
    exact ⟨_, this⟩
  | userNotInDirectory =>
    obtain ⟨hh, u, hu, he, hno⟩ := h
    have hf : w.users.find? (fun d => d.username == u) = none := by
      rw [List.find?_eq_none]
      intro d hd
      simpa using hno d hd
    have := getUserIDFromToken_of_username env c w u hh hu
    rw [he, hf] at this
    exact ⟨_, this⟩
  | userIDFormat =>
    obtain ⟨hh, u, d, x, hu, he, hf, hx⟩ := h
    have := getUserIDFromToken_of_username env c w u hh hu
    rw [he, hf] at this
    simp only [hx] at this
    exact ⟨_, this⟩

/-- The six failure causes are all there are: an error of
`getUserIDFromToken` always has one of them. -/
theorem FailureCause.of_gate_error (env : Env) (c : Context) (w : World) (e : GateErr)
    (h : (getUserIDFromToken env c w).1 = .error e) : ∃ k : FailureCause, k.holds env c w := by
  by_cases hh : c.Authorization = ""
  · exact ⟨.headerAbsent, hh⟩
  · cases hv : (ValidateTokenWithAuthService env c.Authorization w).1 with
    | error e1 => exact ⟨.authCallFails, hh, e1, hv⟩
    | ok resp =>
      cases hval : resp.Valid with
      | false => exact ⟨.tokenInvalid, hh, resp, hv, hval⟩
      | true =>
        have hu := ValidateToken_of_valid env c.Authorization w resp hv hval
        have hg := getUserIDFromToken_of_username env c w resp.Username hh hu
        cases he : env.usersErr with
        | some e2 => exact ⟨.directoryLookupError, hh, _, e2, hu, he⟩
        | none =>
          cases hf : w.users.find? (fun d => d.username == resp.Username) with
          | none =>
            refine ⟨.userNotInDirectory, hh, _, hu, he, ?_⟩
            intro d hd
            have := (List.find?_eq_none.1 hf) d hd
            simpa using this
          | some d =>
            cases hx : d._id with
            | objectID hex =>
              rw [he, hf] at hg
              simp only [hx] at hg
              rw [h] at hg
              exact absurd hg (by simp)
            | other x => exact ⟨.userIDFormat, hh, _, d, x, hu, he, hf, hx⟩

/-! ## Ownership isolation -/

/-- C1 (as amended).  In a store with unique identifiers, for a record `A` and a
caller `U2` other than its owner, calling with the identifier of `A`:
when the store call answers, `getSecret` and `deleteSecret` answer 404, and
`updateSecret` answers 404 if the body binds; when the store call fails with
the driver error `e`, the answer is 500 with the fixed text of the handler
followed by `e` and nothing else; `updateSecret` with a body that does not bind
answers 400 with the binding error; in every case the response is the one the
same call gets on the collection without `A`, it carries no record, and the
call does not change the collection. -/
theorem other_owner_gets_not_found (env : Env) (c : Context) (w : World) (A : Secret)
    (U2 : String) (hu : UniqueIDs w.secrets) (hA : A ∈ w.secrets) (hne : U2 ≠ A.UserID)
    (hid : c.id = A.ID) (hc : c.userID = some U2) :
    (env.secretsErr 0 = none →
      (getSecret env c w).1.response = some ⟨404, .error "Secret not found"⟩ ∧
      (∀ req, bindSecretReq c = .ok req →
        (updateSecret env c w).1.response = some ⟨404, .error "Secret not found"⟩) ∧
      (deleteSecret env c w).1.response = some ⟨404, .error "Secret not found"⟩) ∧
    (∀ e, env.secretsErr 0 = some e →
      (getSecret env c w).1.response
        = some ⟨500, .error ("Failed to fetch secret: " ++ e)⟩ ∧
      (∀ req, bindSecretReq c = .ok req →
        (updateSecret env c w).1.response
          = some ⟨500, .error ("Failed to fetch secret: " ++ e)⟩) ∧
      (deleteSecret env c w).1.response
        = some ⟨500, .error ("Failed to delete secret: " ++ e)⟩) ∧
    (∀ e, bindSecretReq c = .error e →
      (updateSecret env c w).1.response = some ⟨400, .error e⟩) ∧
    ((getSecret env c w).1.response
        = (getSecret env c { w with secrets := w.secrets.erase A }).1.response ∧
      (updateSecret env c w).1.response
        = (updateSecret env c { w with secrets := w.secrets.erase A }).1.response ∧
      (deleteSecret env c w).1.response
        = (deleteSecret env c { w with secrets := w.secrets.erase A }).1.response) ∧
    ((getSecret env c w).1.discloses A = false ∧ (getSecret env c w).2.secrets = w.secrets) ∧
    ((updateSecret env c w).1.discloses A = false ∧
      (updateSecret env c w).2.secrets = w.secrets) ∧
    ((deleteSecret env c w).1.discloses A = false ∧
      (deleteSecret env c w).2.secrets = w.secrets) := by
  have hno := no_match_other_owner hu hA hne
  have hf := find_none_of_no_match hno
  have ha := any_false_of_no_match hno
  have he := eraseP_of_no_match hno
  have hno2 : ∀ s ∈ w.secrets.erase A,
      Filter.matches { _id := some A.ID, userId := some U2 } s = false :=
    fun s hs => hno s (List.mem_of_mem_erase hs)
  have hf2 := find_none_of_no_match hno2
  have ha2 := any_false_of_no_match hno2
  refine ⟨?_, ?_, ?_, ⟨?_, ?_, ?_⟩, ?_, ?_, ?_⟩
  · intro h0
    refine ⟨?_, ?_, ?_⟩
    · simp [getSecret, hc, hid, secretsFindOne, h0, hf, Context.JSON]
    · intro req hreq
      simp [updateSecret, hc, hid, hreq, secretsFindOne, h0, hf, Context.JSON]
    · simp [deleteSecret, hc, hid, secretsDeleteOne, h0, ha, Context.JSON]
  · intro e h0
    refine ⟨?_, ?_, ?_⟩
    · simp [getSecret, hc, hid, secretsFindOne, h0, Context.JSON, MongoErr.Error]
    · intro req hreq
      simp [updateSecret, hc, hid, hreq, secretsFindOne, h0, Context.JSON, MongoErr.Error]
    · simp [deleteSecret, hc, hid, secretsDeleteOne, h0, Context.JSON, MongoErr.Error]
  · intro e hbind
    simp [updateSecret, hc, hbind, Context.JSON]
  · cases h0 : env.secretsErr 0 <;>
      simp [getSecret, hc, hid, secretsFindOne, h0, hf, hf2, Context.JSON]
  · cases hb : bindSecretReq c <;> cases h0 : env.secretsErr 0 <;>
      simp [updateSecret, hc, hid, hb, secretsFindOne, h0, hf, hf2, Context.JSON]
  · cases h0 : env.secretsErr 0 <;>
      simp [deleteSecret, hc, hid, secretsDeleteOne, h0, ha, ha2, Context.JSON]
  · cases h0 : env.secretsErr 0 <;>
      simp [getSecret, hc, hid, secretsFindOne, h0, hf, Context.JSON, Context.discloses,
        Body.carries, World.record]
  · cases hb : bindSecretReq c <;> cases h0 : env.secretsErr 0 <;>
      simp [updateSecret, hc, hid, hb, secretsFindOne, h0, hf, Context.JSON,
        Context.discloses, Body.carries, World.record]
  · cases h0 : env.secretsErr 0 <;>
      simp [deleteSecret, hc, hid, secretsDeleteOne, h0, ha, he, Context.JSON,
        Context.discloses, Body.carries, World.record]

/-- C1, witness: the caller `u2` asks for the record `s1` of owner `u1`. -/
theorem other_owner_gets_not_found_witness :
    (UniqueIDs sampleWorld.secrets ∧ sampleSecret ∈ sampleWorld.secrets ∧
      "u2" ≠ sampleSecret.UserID) ∧
    (getSecret sampleEnv (sampleCtx "u2" "s1" (.ok sampleBody)) sampleWorld).1.response
      = some ⟨404, .error "Secret not found"⟩ :=
  ⟨by decide,
    ((other_owner_gets_not_found sampleEnv (sampleCtx "u2" "s1" (.ok sampleBody)) sampleWorld
      sampleSecret "u2" (by decide) (by decide) (by decide) rfl rfl).1 rfl).1⟩

/-- C1, counterexample: the caller `u2` sends an update for the record `s1` of
owner `u1` with a body that has neither name nor data; the answer is 400 with
the two lines of the validator, not 404. -/
theorem other_owner_update_unbound_body_is_400 :
    UniqueIDs sampleWorld.secrets ∧ sampleSecret ∈ sampleWorld.secrets ∧
    "u2" ≠ sampleSecret.UserID ∧
    (updateSecret sampleEnv (sampleCtx "u2" sampleSecret.ID (.ok {})) sampleWorld).1.response
      = some ⟨400, .error
          ("Key: 'Name' Error:Field validation for 'Name' failed on the 'required' tag\n" ++
           "Key: 'Data' Error:Field validation for 'Data' failed on the 'required' tag")⟩ := by
  decide

/-! ## Create, read, list -/

/-- C2.  For a caller `U` and a body that binds (non-empty name, non-nil data),
with a fresh identifier from the generator and a store that answers:
`createSecret` answers 201 with a record whose identifier is the generated one,
whatever the request holds, and `getSecret` by `U` with that identifier on the
resulting store answers 200 with the same record, whose name, description and
data are those of the body. -/
theorem create_then_get (env env2 : Env) (c c2 : Context) (w : World) (U : String)
    (b : JsonBody) (d : StringMap)
    (hc : c.userID = some U) (hb : c.body = .ok b) (hname : b.name ≠ "")
    (hdata : b.data = some d)
    (hfresh : ∀ s ∈ w.secrets, s.ID ≠ env.uuid) (h0 : env.secretsErr 0 = none)
    (hc2 : c2.userID = some U) (hid2 : c2.id = env.uuid) (h20 : env2.secretsErr 0 = none) :
    ∃ r : Secret,
      (createSecret env c w).1.response = some ⟨201, .secret r⟩ ∧
      r.ID = env.uuid ∧
      (getSecret env2 c2 (createSecret env c w).2).1.response = some ⟨200, .secret r⟩ ∧
      r.Name = b.name ∧ r.Description = b.description ∧ r.Data = some d := by
  have hbind : bindSecretReq c =
      .ok { Name := b.name, Description := b.description, Data := some d } := by
    simp [bindSecretReq, hb, hname, hdata]
  have hany : (w.secrets.any fun s => s.ID == env.uuid) = false := by
    simpa [List.any_eq_false] using hfresh
  have hfind : w.secrets.find?
      (Filter.matches { _id := some env.uuid, userId := some U }) = none := by
    apply find_none_of_no_match
    intro s hs
    simp [Filter.matches, hfresh s hs]
  refine ⟨{ ID := env.uuid, UserID := U, Name := b.name, Description := b.description,
            Data := some d, CreatedAt := env.now, UpdatedAt := env.now }, ?_, rfl, ?_,
          rfl, rfl, rfl⟩
  · simp [createSecret, hbind, hc, secretsInsertOne, h0, hany, Context.JSON]
  · simp [createSecret, hbind, hc, secretsInsertOne, h0, hany, getSecret, hc2, hid2,
      secretsFindOne, h20, World.record, hfind, Filter.matches, Context.JSON]

/-- C2, witness: `u1` creates `db-creds` in the sample store and reads it back. -/
theorem create_then_get_witness :
    ∃ r : Secret,
      (createSecret sampleEnv (sampleCtx "u1" "" (.ok sampleBody)) sampleWorld).1.response
        = some ⟨201, .secret r⟩ ∧
      r.ID = "id-9" ∧
      (getSecret sampleEnv (sampleCtx "u1" "id-9" (.ok {}))
        (createSecret sampleEnv (sampleCtx "u1" "" (.ok sampleBody)) sampleWorld).2).1.response
        = some ⟨200, .secret r⟩ ∧
      r.Name = "db-creds" ∧ r.Description = "" ∧
      r.Data = some [("user", "a"), ("pass", "b")] :=
  create_then_get sampleEnv sampleEnv (sampleCtx "u1" "" (.ok sampleBody))
    (sampleCtx "u1" "id-9" (.ok {})) sampleWorld "u1" sampleBody
    [("user", "a"), ("pass", "b")] rfl rfl (by decide) rfl (by decide) rfl rfl rfl rfl

/-- C3.  With a store that answers, `getSecrets` as `U` answers 200 with the
array of exactly the stored records whose owner is `U` (each of them, in store
order, and no record of another owner).  In particular, after `u1` creates
`db-creds` with data user=a, pass=b on an empty store, the list of `u1` is that
one record and the list of `u2` is the empty array. -/
theorem list_returns_exactly_own (env : Env) (c : Context) (w : World) (U : String)
    (hc : c.userID = some U) (h0 : env.secretsErr 0 = none) (h1 : env.secretsErr 1 = none) :
    (∃ l : List Secret,
      (getSecrets env c w).1.response = some ⟨200, .secrets l⟩ ∧
      l = w.secrets.filter (fun s => s.UserID == U) ∧
      (∀ s, s ∈ l ↔ s ∈ w.secrets ∧ s.UserID = U)) ∧
    (∀ (envC : Env) (cC c1 c2 : Context) (w0 : World),
      w0.secrets = [] → envC.secretsErr 0 = none →
      cC.userID = some "u1" →
      cC.body = .ok { name := "db-creds", data := some [("user", "a"), ("pass", "b")] } →
      c1.userID = some "u1" → c2.userID = some "u2" →
      (createSecret envC cC w0).1.response =
        some ⟨201, .secret ⟨envC.uuid, "u1", "db-creds", "",
          some [("user", "a"), ("pass", "b")], envC.now, envC.now⟩⟩ ∧
      (getSecrets env c1 (createSecret envC cC w0).2).1.response =
        some ⟨200, .secrets [⟨envC.uuid, "u1", "db-creds", "",
          some [("user", "a"), ("pass", "b")], envC.now, envC.now⟩]⟩ ∧
      (getSecrets env c2 (createSecret envC cC w0).2).1.response =
        some ⟨200, .secrets []⟩) := by
  constructor
  · refine ⟨w.secrets.filter (fun s => s.UserID == U), ?_, rfl, ?_⟩
    · have hf : (Filter.matches { userId := some U }) = fun s => s.UserID == U := by
        funext s; simp [Filter.matches]
      simp [getSecrets, hc, secretsFind, h0, cursorAll, h1, Context.JSON, hf]
    · intro s; simp [List.mem_filter]
  · intro envC cC c1 c2 w0 hw hC0 hcC hbody hc1 hc2
    have hbind : bindSecretReq cC =
        .ok ⟨"db-creds", "", some [("user", "a"), ("pass", "b")]⟩ := by
      simp [bindSecretReq, hbody]
    refine ⟨?_, ?_, ?_⟩
    · simp [createSecret, hbind, hcC, secretsInsertOne, hC0, hw, Context.JSON]
    · simp [createSecret, hbind, hcC, secretsInsertOne, hC0, hw, getSecrets, hc1,
        secretsFind, h0, cursorAll, h1, Context.JSON, World.record, Filter.matches]
    · simp [createSecret, hbind, hcC, secretsInsertOne, hC0, hw, getSecrets, hc2,
        secretsFind, h0, cursorAll, h1, Context.JSON, World.record, Filter.matches]

/-- C3, witness: the list of `u1` in the sample store is the one record of `u1`. -/
theorem list_returns_exactly_own_witness :
    (getSecrets sampleEnv (sampleCtx "u1" "" (.ok {})) sampleWorld).1.response
      = some ⟨200, .secrets [sampleSecret]⟩ := by
  obtain ⟨l, h1, h2, _⟩ :=
    (list_returns_exactly_own sampleEnv (sampleCtx "u1" "" (.ok {})) sampleWorld "u1"
      rfl rfl rfl).1
  rw [h1, h2]
  decide

/-! ## Delete and update -/

/-- C4.  In a store with unique identifiers that holds a record `r`, with a
store that answers: the first `deleteSecret` by the owner of `r` with the
identifier of `r` answers 200 and removes `r` and nothing else; the second one
right after answers 404 and leaves the store as it is. -/
theorem delete_then_delete (env1 env2 : Env) (c c2 : Context) (w : World) (r : Secret)
    (hu : UniqueIDs w.secrets) (hr : r ∈ w.secrets)
    (hid : c.id = r.ID) (hc : c.userID = some r.UserID)
    (hid2 : c2.id = r.ID) (hc2 : c2.userID = some r.UserID)
    (h1 : env1.secretsErr 0 = none) (h2 : env2.secretsErr 0 = none) :
    (deleteSecret env1 c w).1.response = some ⟨200, .message "Secret deleted successfully"⟩ ∧
    (deleteSecret env1 c w).2.secrets = w.secrets.erase r ∧
    (∀ s, s ∈ (deleteSecret env1 c w).2.secrets ↔ s ∈ w.secrets ∧ s ≠ r) ∧
    (deleteSecret env2 c2 (deleteSecret env1 c w).2).1.response
      = some ⟨404, .error "Secret not found"⟩ ∧
    (deleteSecret env2 c2 (deleteSecret env1 c w).2).2.secrets
      = (deleteSecret env1 c w).2.secrets := by
  have hnd : w.secrets.Nodup := List.Nodup.of_map _ hu
  have hany : w.secrets.any (Filter.matches { _id := some r.ID, userId := some r.UserID })
      = true := by
    rw [List.any_eq_true]
    exact ⟨r, hr, by simp [Filter.matches]⟩
  have her := eraseP_eq_erase hu hr
  have hmem : ∀ s, s ∈ w.secrets.erase r ↔ s ∈ w.secrets ∧ s ≠ r := by
    intro s
    rw [hnd.mem_erase_iff]
    exact And.comm
  rw [← hid] at hany her
  obtain ⟨hresp1, hsec1⟩ := deleteSecret_of_match env1 c w r.UserID hc h1 hany
  have hw1 : (deleteSecret env1 c w).2.secrets = w.secrets.erase r := by
    rw [hsec1, her]
  have hno : ∀ s ∈ (deleteSecret env1 c w).2.secrets,
      Filter.matches { _id := some c2.id, userId := some r.UserID } s = false := by
    intro s hs
    rw [hw1] at hs
    obtain ⟨hs1, hs2⟩ := (hmem s).1 hs
    rw [hid2, matches_iff_eq hu hr s hs1]
    simpa using hs2
  obtain ⟨hresp2, hsec2⟩ :=
    deleteSecret_of_no_match env2 c2 (deleteSecret env1 c w).2 r.UserID hc2 h2 hno
  exact ⟨hresp1, hw1, fun s => by rw [hw1]; exact hmem s, hresp2, hsec2⟩

/-- C4, witness: `u1` deletes the record `s1` of the sample store twice. -/
theorem delete_then_delete_witness :
    (UniqueIDs sampleWorld.secrets ∧ sampleSecret ∈ sampleWorld.secrets) ∧
    (deleteSecret sampleEnv (sampleCtx "u1" "s1" (.ok {})) sampleWorld).1.response
      = some ⟨200, .message "Secret deleted successfully"⟩ ∧
    (deleteSecret sampleEnv (sampleCtx "u1" "s1" (.ok {})) sampleWorld).2.secrets
      = sampleWorld.secrets.erase sampleSecret ∧
    (deleteSecret sampleEnv (sampleCtx "u1" "s1" (.ok {}))
      (deleteSecret sampleEnv (sampleCtx "u1" "s1" (.ok {})) sampleWorld).2).1.response
      = some ⟨404, .error "Secret not found"⟩ :=
  have h := delete_then_delete sampleEnv sampleEnv (sampleCtx "u1" "s1" (.ok {}))
    (sampleCtx "u1" "s1" (.ok {})) sampleWorld sampleSecret (by decide) (by decide)
    rfl rfl rfl rfl rfl rfl
  ⟨by decide, h.1, h.2.1, h.2.2.2.1⟩

/-- C5.  For a stored record `r`, its owner and a body that binds, with a
store that answers and a clock that does not go backwards: two `updateSecret`
calls in a row with the same body both answer 200; the record found under the
identifier of `r` has, after the first call and after the second, the name,
description and data of the body, and its updated instant after the second call
is at least the one after the first. -/
theorem update_twice_same_content (env1 env2 : Env) (c c2 : Context) (w : World)
    (r : Secret) (req : SecretReq)
    (hr : r ∈ w.secrets)
    (hid : c.id = r.ID) (hc : c.userID = some r.UserID) (hb : bindSecretReq c = .ok req)
    (hid2 : c2.id = r.ID) (hc2 : c2.userID = some r.UserID) (hb2 : bindSecretReq c2 = .ok req)
    (hf1 : ∀ n, env1.secretsErr n = none) (hf2 : ∀ n, env2.secretsErr n = none)
    (hclock : env1.now ≤ env2.now) :
    ∃ r1 r2 : Secret,
      (updateSecret env1 c w).1.response = some ⟨200, .secret r1⟩ ∧
      (updateSecret env1 c w).2.secrets.find?
        (Filter.matches { _id := some r.ID, userId := some r.UserID }) = some r1 ∧
      (updateSecret env2 c2 (updateSecret env1 c w).2).1.response = some ⟨200, .secret r2⟩ ∧
      (updateSecret env2 c2 (updateSecret env1 c w).2).2.secrets.find?
        (Filter.matches { _id := some r.ID, userId := some r.UserID }) = some r2 ∧
      (r1.ID = r.ID ∧ r1.UserID = r.UserID ∧ r2.ID = r.ID ∧ r2.UserID = r.UserID) ∧
      (r1.Name = req.Name ∧ r1.Description = req.Description ∧ r1.Data = req.Data) ∧
      (r2.Name = r1.Name ∧ r2.Description = r1.Description ∧ r2.Data = r1.Data) ∧
      r1.UpdatedAt = env1.now ∧ r2.UpdatedAt = env2.now ∧ r1.UpdatedAt ≤ r2.UpdatedAt := by
  obtain ⟨r0, h0, hm0⟩ := find_some_of_mem_matches
    (p := Filter.matches { _id := some r.ID, userId := some r.UserID }) hr
    (by simp [Filter.matches])
  obtain ⟨hid0, huid0⟩ := (matches_id_owner _ _ _).1 hm0
  have h0c : w.secrets.find?
      (Filter.matches { _id := some c.id, userId := some r.UserID }) = some r0 := by
    rw [hid]; exact h0
  obtain ⟨ha1, _, ha3⟩ := updateSecret_of_find env1 c w r.UserID req r0 hc hb hf1 h0c
  have h1c : (updateSecret env1 c w).2.secrets.find?
      (Filter.matches { _id := some c2.id, userId := some r.UserID }) =
      some (SetDoc.apply ⟨req.Name, req.Description, req.Data, env1.now⟩ r0) := by
    rw [hid2, ← hid]; exact ha3
  obtain ⟨hb1, _, hb3⟩ := updateSecret_of_find env2 c2 (updateSecret env1 c w).2 r.UserID
    req _ hc2 hb2 hf2 h1c
  rw [hid] at ha3
  rw [hid2] at hb3
  exact ⟨_, _, ha1, ha3, hb1, hb3, ⟨hid0, huid0, hid0, huid0⟩, ⟨rfl, rfl, rfl⟩,
    ⟨rfl, rfl, rfl⟩, rfl, rfl, hclock⟩

/-- C5, witness: `u1` sends the same update of record `s1` at instants 100 and 200. -/
theorem update_twice_same_content_witness :
    ∃ r1 r2 : Secret,
      (updateSecret sampleEnv (sampleCtx "u1" "s1" (.ok sampleBody)) sampleWorld).1.response
        = some ⟨200, .secret r1⟩ ∧
      (updateSecret laterEnv (sampleCtx "u1" "s1" (.ok sampleBody))
        (updateSecret sampleEnv (sampleCtx "u1" "s1" (.ok sampleBody)) sampleWorld).2).1.response
        = some ⟨200, .secret r2⟩ ∧
      r2.Name = r1.Name ∧ r2.Description = r1.Description ∧ r2.Data = r1.Data ∧
      r1.UpdatedAt ≤ r2.UpdatedAt :=
  have ⟨r1, r2, h1, _, h2, _, _, _, h3, _, _, h4⟩ :=
    update_twice_same_content sampleEnv laterEnv (sampleCtx "u1" "s1" (.ok sampleBody))
      (sampleCtx "u1" "s1" (.ok sampleBody)) sampleWorld sampleSecret
      ⟨"db-creds", "", some [("user", "a"), ("pass", "b")]⟩
      (by decide) rfl rfl rfl rfl rfl rfl (fun _ => rfl) (fun _ => rfl) (by decide)
  ⟨r1, r2, h1, h2, h3.1, h3.2.1, h3.2.2, h4⟩

/-- C11.  In a store with unique identifiers that holds a record `r`, for the
owner of `r`, a body that binds and a store that answers: `updateSecret` answers
200; the collection afterwards is the old one with `r` replaced in place by the
record that has the identifier, owner and created instant of `r`, the name,
description and data of the body (nothing of the old data map is kept) and the
instant of the update as updated instant; every other record is in the
collection as before and nothing else is in it; and the response body is that
record, which is the one now found under the identifier. -/
theorem update_replaces_content_in_place (env : Env) (c : Context) (w : World) (r : Secret)
    (req : SecretReq)
    (hu : UniqueIDs w.secrets) (hr : r ∈ w.secrets)
    (hid : c.id = r.ID) (hc : c.userID = some r.UserID) (hb : bindSecretReq c = .ok req)
    (hf : ∀ n, env.secretsErr n = none) :
    (updateSecret env c w).1.response = some ⟨200, .secret
      ⟨r.ID, r.UserID, req.Name, req.Description, req.Data, r.CreatedAt, env.now⟩⟩ ∧
    (updateSecret env c w).2.secrets = w.secrets.map (fun s =>
      if s = r then ⟨r.ID, r.UserID, req.Name, req.Description, req.Data, r.CreatedAt, env.now⟩
      else s) ∧
    (updateSecret env c w).2.secrets.find?
        (Filter.matches { _id := some r.ID, userId := some r.UserID }) =
      some ⟨r.ID, r.UserID, req.Name, req.Description, req.Data, r.CreatedAt, env.now⟩ ∧
    (∀ s ∈ w.secrets, s ≠ r → s ∈ (updateSecret env c w).2.secrets) ∧
    (∀ s ∈ (updateSecret env c w).2.secrets,
      s = ⟨r.ID, r.UserID, req.Name, req.Description, req.Data, r.CreatedAt, env.now⟩ ∨
      (s ∈ w.secrets ∧ s ≠ r)) ∧
    (updateSecret env c w).2.secrets.length = w.secrets.length := by
  have hfind : w.secrets.find?
      (Filter.matches { _id := some c.id, userId := some r.UserID }) = some r := by
    rw [hid]; exact find_of_unique hu hr
  obtain ⟨h1, h2, h3⟩ := updateSecret_of_find env c w r.UserID req r hc hb hf hfind
  have hnd : w.secrets.Nodup := List.Nodup.of_map _ hu
  have hmap : (updateSecret env c w).2.secrets = w.secrets.map (fun s =>
      if s = r then
        ⟨r.ID, r.UserID, req.Name, req.Description, req.Data, r.CreatedAt, env.now⟩
      else s) := by
    rw [h2, hid]
    exact updateFirst_eq_map _ hnd (matches_iff_eq hu hr)
  rw [hid] at h3
  refine ⟨h1, hmap, h3, ?_, ?_, ?_⟩
  · intro s hs hne
    rw [hmap]
    exact List.mem_map.2 ⟨s, hs, by simp [hne]⟩
  · intro s hs
    rw [hmap] at hs
    obtain ⟨s0, hs0, hs1⟩ := List.mem_map.1 hs
    by_cases h : s0 = r
    · left; simpa [h] using hs1.symm
    · right
      have : s0 = s := by simpa [h] using hs1
      exact this ▸ ⟨hs0, h⟩
  · rw [hmap, List.length_map]

/-- C11, witness: `u1` replaces the content of record `s1` of the sample store;
the record of `u2` stays as it is. -/
theorem update_replaces_content_in_place_witness :
    (UniqueIDs sampleWorld.secrets ∧ sampleSecret ∈ sampleWorld.secrets) ∧
    (updateSecret sampleEnv (sampleCtx "u1" "s1" (.ok rotatedBody)) sampleWorld).1.response
      = some ⟨200, .secret
          ⟨"s1", "u1", "db-creds-2", "rotated", some [("token", "z")], 10, 100⟩⟩ ∧
    (updateSecret sampleEnv (sampleCtx "u1" "s1" (.ok rotatedBody)) sampleWorld).2.secrets
      = [⟨"s1", "u1", "db-creds-2", "rotated", some [("token", "z")], 10, 100⟩, otherSecret] :=
  have h := update_replaces_content_in_place sampleEnv
    (sampleCtx "u1" "s1" (.ok rotatedBody)) sampleWorld sampleSecret
    ⟨"db-creds-2", "rotated", some [("token", "z")]⟩
    (by decide) (by decide) rfl rfl rfl (fun _ => rfl)
  ⟨by decide, h.1, h.2.1.trans (by decide)⟩

/-! ## The access-key route -/

/-- C6.  For a request to `getSecretByAccessKey` that binds and whose key pair
the auth service accepts with a non-empty owner identifier `U`, with a store
that answers: when no stored record has the requested name together with owner
`U` (records of that name under other owners may exist) the answer is 404 with
a body that carries no stored record; in every case the response is the one
the same request gets on the collection cut down to the records of `U`, and the
collection is unchanged. -/
theorem access_key_lookup_is_owner_scoped (env : Env) (c : Context) (w : World)
    (req : AccessReq) (authResp : AccessKeyAuthResponse)
    (hb : bindAccessReq c = .ok req)
    (hauth : env.apikey ⟨req.AccessKey, req.SecretKey⟩ = .ok authResp)
    (hU : authResp.UserID ≠ "") (h0 : env.secretsErr 0 = none) :
    ((∀ s ∈ w.secrets, ¬ (s.Name = req.Name ∧ s.UserID = authResp.UserID)) →
      (getSecretByAccessKey env c w).1.response = some ⟨404, .message "Secret not found"⟩ ∧
      ∀ s ∈ w.secrets, (getSecretByAccessKey env c w).1.discloses s = false) ∧
    (getSecretByAccessKey env c w).1.response =
      (getSecretByAccessKey env c
        { w with secrets := w.secrets.filter (fun s => s.UserID == authResp.UserID) }).1.response ∧
    (getSecretByAccessKey env c w).2.secrets = w.secrets := by
  obtain ⟨hk1, hk2, hk3⟩ := bindAccessReq_ok hb
  have hU2 : (authResp.UserID == "") = false := by simpa using hU
  refine ⟨?_, ?_, ?_⟩
  · intro hno
    have hf : w.secrets.find?
        (Filter.matches { name := some req.Name, userId := some authResp.UserID }) = none := by
      apply find_none_of_no_match
      intro s hs
      have := hno s hs
      rw [← Bool.not_eq_true, matches_name_owner]
      exact this
    constructor
    · simp [getSecretByAccessKey, hb, hk1, hk2, hk3, ValidateAccessKey, hauth, hU2,
        secretsFindOne, h0, World.record, hf, Context.JSON]
    · intro s _
      simp [getSecretByAccessKey, hb, hk1, hk2, hk3, ValidateAccessKey, hauth, hU2,
        secretsFindOne, h0, World.record, hf, Context.JSON, Context.discloses, Body.carries]
  · have hf := find_name_owner_filter w.secrets req.Name authResp.UserID
    simp only [getSecretByAccessKey, hb, hk1, hk2, hk3, ValidateAccessKey, hauth, hU2,
      secretsFindOne, h0, World.record, hf, Bool.or_self, Bool.false_eq_true, if_false]
    cases w.secrets.find?
      (Filter.matches { name := some req.Name, userId := some authResp.UserID }) <;> rfl
  · simp only [getSecretByAccessKey, hb, hk1, hk2, hk3, ValidateAccessKey, hauth, hU2,
      secretsFindOne, h0, World.record, Bool.or_self, Bool.false_eq_true, if_false]
    cases w.secrets.find?
      (Filter.matches { name := some req.Name, userId := some authResp.UserID }) <;> rfl

/-- C6, witness: the key pair of `u1` asks for `api`, a name that exists only
under owner `u2`. -/
theorem access_key_lookup_is_owner_scoped_witness :
    otherSecret ∈ sampleWorld.secrets ∧ otherSecret.Name = "api" ∧
    (getSecretByAccessKey sampleEnv
      (Context.new ⟨"", "", .ok { accessKey := "ak", secretKey := "sk", name := "api" }⟩)
      sampleWorld).1.response = some ⟨404, .message "Secret not found"⟩ :=
  ⟨by decide, rfl,
    ((access_key_lookup_is_owner_scoped sampleEnv
      (Context.new ⟨"", "", .ok { accessKey := "ak", secretKey := "sk", name := "api" }⟩)
      sampleWorld ⟨"ak", "sk", "api"⟩ ⟨"t", "u1", "alice", "a@x", ""⟩ rfl rfl (by decide)
      rfl).1 (by decide)).1⟩

/-- C9 (as amended).  For a request to `getSecretByAccessKey` that binds (all
three fields present): if `ValidateAccessKey` fails the answer is 401 with the
message `Authentication failed`; if it succeeds with an empty `UserID` the
answer is 500 with the message `User ID not found in auth response`; in both
cases the only outbound call is the one to the auth service, so the secrets
collection is not queried. -/
theorem access_key_auth_failures (env : Env) (c : Context) (w : World) (req : AccessReq)
    (hb : bindAccessReq c = .ok req) :
    (∀ e, (ValidateAccessKey env req.AccessKey req.SecretKey w).1 = .error e →
      (getSecretByAccessKey env c w).1.response
        = some ⟨401, .messageError "Authentication failed" e⟩ ∧
      (getSecretByAccessKey env c w).2
        = w.record (.authApiKey ⟨req.AccessKey, req.SecretKey⟩)) ∧
    (∀ authResp, (ValidateAccessKey env req.AccessKey req.SecretKey w).1 = .ok authResp →
      authResp.UserID = "" →
      (getSecretByAccessKey env c w).1.response
        = some ⟨500, .message "User ID not found in auth response"⟩ ∧
      (getSecretByAccessKey env c w).2
        = w.record (.authApiKey ⟨req.AccessKey, req.SecretKey⟩)) := by
  obtain ⟨hk1, hk2, hk3⟩ := bindAccessReq_ok hb
  have hw : (ValidateAccessKey env req.AccessKey req.SecretKey w).2
      = w.record (.authApiKey ⟨req.AccessKey, req.SecretKey⟩) := by
    unfold ValidateAccessKey
    simp only []
    split <;> rfl
  constructor
  · intro e he
    have hp : ValidateAccessKey env req.AccessKey req.SecretKey w =
        (.error e, w.record (.authApiKey ⟨req.AccessKey, req.SecretKey⟩)) := by
      rw [← he, ← hw]
    simp [getSecretByAccessKey, hb, hk1, hk2, hk3, hp, Context.JSON]
  · intro authResp ha hempty
    have hp : ValidateAccessKey env req.AccessKey req.SecretKey w =
        (.ok authResp, w.record (.authApiKey ⟨req.AccessKey, req.SecretKey⟩)) := by
      rw [← ha, ← hw]
    simp [getSecretByAccessKey, hb, hk1, hk2, hk3, hp, hempty, Context.JSON]

/-- C9, witness: a wrong key pair is answered 401. -/
theorem access_key_auth_failures_witness :
    (getSecretByAccessKey sampleEnv
      (Context.new ⟨"", "", .ok { accessKey := "ak", secretKey := "no", name := "db-creds" }⟩)
      sampleWorld).1.response
      = some ⟨401, .messageError "Authentication failed"
          "auth service returned error: 401 Unauthorized - bad key"⟩ :=
  ((access_key_auth_failures sampleEnv
    (Context.new ⟨"", "", .ok { accessKey := "ak", secretKey := "no", name := "db-creds" }⟩)
    sampleWorld ⟨"ak", "no", "db-creds"⟩ rfl).1 _ rfl).1

/-- C9, counterexample: the auth service accepts the key pair with an empty
`userID`; the answer is 500, not 401. -/
theorem access_key_empty_owner_is_500 :
    (getSecretByAccessKey noOwnerEnv
      (Context.new ⟨"", "", .ok { accessKey := "ak", secretKey := "sk", name := "db-creds" }⟩)
      sampleWorld).1.response
      = some ⟨500, .message "User ID not found in auth response"⟩ := by
  decide

/-! ## The gate -/

/-- C7.  For every session route and every request with an `Authorization`
header for which the validation endpoint answers `valid = false`: the response
is 401, the chain ends with the gate (the route handler is not run), and the
only outbound call is the one to the validation endpoint: no user-directory
lookup and no operation on the secrets collection. -/
theorem invalid_token_is_401_before_store (env : Env) (r : Route) (req : Request) (w : World)
    (resp : TokenValidationResponse)
    (hh : req.Authorization ≠ "")
    (hv : (ValidateTokenWithAuthService env req.Authorization w).1 = .ok resp)
    (hinv : resp.Valid = false) :
    (serve env r req w).1.response = some ⟨401, .error "Unauthorized User"⟩ ∧
    serve env r req w = authMiddleware env (Context.new req) w ∧
    (∃ tok, (serve env r req w).2 = w.record (.authValidate ⟨tok⟩)) ∧
    (∀ e ∈ (serve env r req w).2.trace, e ∈ w.trace ∨ e.isStore = false) ∧
    (serve env r req w).2.secrets = w.secrets ∧ (serve env r req w).2.users = w.users := by
  have hg := getUserIDFromToken_of_token_error env (Context.new req) w _ hh
    (ValidateToken_of_invalid _ _ _ resp hv hinv)
  have hm := authMiddleware_of_error env (Context.new req) w _ (by rw [hg])
  have hs := serve_of_aborted env r req w (by rw [hm]; rfl)
  have hw : (serve env r req w).2 = w.record (.authValidate
      ⟨if req.Authorization.length > 7 && req.Authorization.take 7 == "Bearer "
        then req.Authorization.drop 7 else req.Authorization⟩) := by
    rw [hs, hm, hg]
    simp only []
    rw [ValidateToken_world, ValidateTokenWithAuthService_world]
    rfl
  refine ⟨by rw [hs, hm]; rfl, hs, ⟨_, hw⟩, ?_, by rw [hw]; rfl, by rw [hw]; rfl⟩
  intro e he
  rw [hw] at he
  simp only [World.record, List.mem_append, List.mem_singleton] at he
  rcases he with he | he
  · exact Or.inl he
  · exact Or.inr (by rw [he]; rfl)

/-- C7, witness: the token `tok-bob` is reported invalid on the update route. -/
theorem invalid_token_is_401_before_store_witness :
    (serve sampleEnv .update ⟨"Bearer tok-bob", "s1", .ok sampleBody⟩ sampleWorld).1.response
      = some ⟨401, .error "Unauthorized User"⟩ ∧
    (serve sampleEnv .update ⟨"Bearer tok-bob", "s1", .ok sampleBody⟩ sampleWorld).2.secrets
      = sampleWorld.secrets :=
  have h := invalid_token_is_401_before_store sampleEnv .update
    ⟨"Bearer tok-bob", "s1", .ok sampleBody⟩ sampleWorld ⟨false, "", "invalid token"⟩
    (by decide) (by rfl) rfl
  ⟨h.1, h.2.2.2.2.1⟩

/-- C8.  For a request that fails the gate for any of the six causes (header
absent, auth call failing, token reported invalid, directory lookup error,
username not in the directory, identifier not an ObjectID): the response is
401 with the body `error: Unauthorized User`, the context is aborted so that no
route handler runs, no `userID` is attached, and any other failing request,
whatever its cause, gets the identical response; the six causes are the only
ways in which `getUserIDFromToken` returns an error. -/
theorem gate_failure_is_opaque_401 (env : Env) (req : Request) (w : World) (k : FailureCause)
    (h : k.holds env (Context.new req) w) :
    (authMiddleware env (Context.new req) w).1.response
      = some ⟨401, .error "Unauthorized User"⟩ ∧
    (authMiddleware env (Context.new req) w).1.aborted = true ∧
    (authMiddleware env (Context.new req) w).1.userID = none ∧
    (∀ r, serve env r req w = authMiddleware env (Context.new req) w) ∧
    (∀ (env2 : Env) (req2 : Request) (w2 : World) (k2 : FailureCause),
      k2.holds env2 (Context.new req2) w2 →
      (authMiddleware env2 (Context.new req2) w2).1.response
        = (authMiddleware env (Context.new req) w).1.response) ∧
    (∀ (env2 : Env) (req2 : Request) (w2 : World) (e2 : GateErr),
      (getUserIDFromToken env2 (Context.new req2) w2).1 = .error e2 →
      (∃ k2 : FailureCause, k2.holds env2 (Context.new req2) w2) ∧
      (authMiddleware env2 (Context.new req2) w2).1.response
        = (authMiddleware env (Context.new req) w).1.response) := by
  obtain ⟨e, he⟩ := k.gate_error env (Context.new req) w h
  have hm := authMiddleware_of_error env (Context.new req) w e he
  refine ⟨by rw [hm]; rfl, by rw [hm]; rfl, by rw [hm]; rfl, ?_, ?_, ?_⟩
  · intro r
    exact serve_of_aborted env r req w (by rw [hm]; rfl)
  · intro env2 req2 w2 k2 h2
    obtain ⟨e2, he2⟩ := k2.gate_error env2 (Context.new req2) w2 h2
    rw [hm, authMiddleware_of_error env2 (Context.new req2) w2 e2 he2]
    rfl
  · intro env2 req2 w2 e2 he2
    refine ⟨FailureCause.of_gate_error env2 (Context.new req2) w2 e2 he2, ?_⟩
    rw [hm, authMiddleware_of_error env2 (Context.new req2) w2 e2 he2]
    rfl

/-- C8, witness: a request without header and a request of a user missing from
the directory get the same 401. -/
theorem gate_failure_is_opaque_401_witness :
    FailureCause.headerAbsent.holds sampleEnv (Context.new ⟨"", "s1", .ok {}⟩) sampleWorld ∧
    FailureCause.userNotInDirectory.holds sampleEnv
      (Context.new ⟨"Bearer tok-alice", "s1", .ok {}⟩)
      { sampleWorld with users := [] } ∧
    (authMiddleware sampleEnv (Context.new ⟨"Bearer tok-alice", "s1", .ok {}⟩)
      { sampleWorld with users := [] }).1.response
      = (authMiddleware sampleEnv (Context.new ⟨"", "s1", .ok {}⟩) sampleWorld).1.response :=
  have h1 : FailureCause.headerAbsent.holds sampleEnv (Context.new ⟨"", "s1", .ok {}⟩)
      sampleWorld := rfl
  have h2 : FailureCause.userNotInDirectory.holds sampleEnv
      (Context.new ⟨"Bearer tok-alice", "s1", .ok {}⟩) { sampleWorld with users := [] } :=
    ⟨by decide, "alice", by rfl, rfl, by simp⟩
  ⟨h1, h2, (gate_failure_is_opaque_401 sampleEnv ⟨"", "s1", .ok {}⟩ sampleWorld
    .headerAbsent h1).2.2.2.2.1 sampleEnv ⟨"Bearer tok-alice", "s1", .ok {}⟩
    { sampleWorld with users := [] } .userNotInDirectory h2⟩

/-! ## The token sent for validation -/

/-- C10, the code at the failing input.  The token sent to the validation
endpoint: for the argument `Bearer ` followed by a non-empty rest it is the
rest (so of `Bearer Bearer x` it is `Bearer x`); for an argument that does not
begin with `Bearer ` it is the argument; but for the argument that is exactly
`Bearer ` it is `Bearer ` itself, not the empty string. -/
theorem bare_bearer_is_sent_unstripped (env : Env) (w : World) :
    (ValidateTokenWithAuthService env "Bearer " w).2.trace
      = w.trace ++ [.authValidate ⟨"Bearer "⟩] ∧
    (ValidateTokenWithAuthService env "Bearer Bearer x" w).2.trace
      = w.trace ++ [.authValidate ⟨"Bearer x"⟩] ∧
    (∀ rest : String, rest ≠ "" →
      (ValidateTokenWithAuthService env ("Bearer " ++ rest) w).2.trace
        = w.trace ++ [.authValidate ⟨rest⟩]) ∧
    (∀ t : String, ¬ ("Bearer ".data <+: t.data) →
      (ValidateTokenWithAuthService env t w).2.trace = w.trace ++ [.authValidate ⟨t⟩]) := by
  have hd : "Bearer ".data = ['B', 'e', 'a', 'r', 'e', 'r', ' '] := rfl
  have hrest : ∀ rest : String, rest ≠ "" →
      (ValidateTokenWithAuthService env ("Bearer " ++ rest) w).2.trace
        = w.trace ++ [.authValidate ⟨rest⟩] := by
    intro rest hne
    have hlen : 0 < rest.length := by
      rcases rest with ⟨l⟩
      cases l with
      | nil => exact absurd rfl hne
      | cons a t => simp [String.length]
    have h1 : ("Bearer " ++ rest).length > 7 := by
      rw [String.length_append]
      have : "Bearer ".length = 7 := rfl
      omega
    have h2 : ("Bearer " ++ rest).take 7 = "Bearer " := by
      rw [String.take_eq]
      apply String.ext
      simp [String.data_append, hd]
    have h3 : ("Bearer " ++ rest).drop 7 = rest := by
      rw [String.drop_eq]
      apply String.ext
      simp [String.data_append, hd]
    have hcond : (decide (("Bearer " ++ rest).length > 7) &&
        (("Bearer " ++ rest).take 7 == "Bearer ")) = true := by
      rw [h2, Bool.and_eq_true]
      exact ⟨decide_eq_true h1, by simp⟩
    rw [ValidateTokenWithAuthService_world, if_pos hcond, h3]
    rfl
  refine ⟨?_, ?_, hrest, ?_⟩
  · rw [ValidateTokenWithAuthService_world]
    have : ¬ ("Bearer ".length > 7) := by decide
    simp [World.record, this]
  · exact hrest "Bearer x" (by decide)
  · intro t hnp
    have h2 : ¬ (t.take 7 = "Bearer ") := by
      intro h
      apply hnp
      have h' := congrArg String.data h
      rw [String.data_take] at h'
      rw [← h']
      exact List.take_prefix 7 t.data
    rw [ValidateTokenWithAuthService_world]
    simp [World.record, h2]

end SimpleVault
